import Mathlib

/-!
Shallow embedding of the core data pipeline of `src/app.py` (a PET/PCR/CO₂
emissions calculator): schema normalization of column headers, catalog and
purchase-ledger loading with numeric coercion, quantity merging, and the
per-record emissions formulas.  Python floats are modelled by `ℚ`; a pandas
missing value (NaN, produced by a missing cell or by `pd.to_numeric(...,
errors="coerce")` on a non-coercible value) is modelled by `Option`.
-/

namespace PetPcr

/-- Python `str.strip()` / pandas `.str.strip()`: remove leading and trailing
whitespace.  (Defined over the character list so that concrete instances
reduce inside the kernel.) -/
def strip (s : String) : String :=
  ⟨((s.data.dropWhile fun c => c.isWhitespace).reverse.dropWhile fun c =>
      c.isWhitespace).reverse⟩

/-- Character-wise lower-casing, used only to state that two headers differ
in letter case alone. -/
def lowerStr (s : String) : String := ⟨s.data.map Char.toLower⟩

/-- `GRAMS_PER_LB = 453.59237`, src/app.py line 4. -/
def GRAMS_PER_LB : ℚ := 453.59237

/-- `KG_PER_LB = 0.45359237`, src/app.py line 5. -/
def KG_PER_LB : ℚ := 0.45359237

/-- The catalog alias table of `normalize_cols` (src/app.py lines 24-39):
canonical field name paired with its priority-ordered accepted aliases. -/
def catalogAliases : List (String × List String) :=
  [("Vendor Part Number",
     ["Vendor Part Number", "Vendor Part #", "Vendor Part No", "Part Number",
      "Part #", "VendorPN", "Vendor PN"]),
   ("Item Description",
     ["Item Description", "Description", "Item", "Item Desc"]),
   ("Weight (g)",
     ["Weight (g)", "Gram Weight", "Gram Weight (g)", "Grams", "Weight Grams",
      "Weight_g", "Weight"]),
   ("PCR %",
     ["PCR %", "PCR%", "PCR Content", "PCR Content %", "% PCR", "Post-Consumer %"])]

/-- The error raised by `normalize_cols` (src/app.py lines 50-53):
the message enumerates the missing canonical fields and the columns found.
We model the message payload structurally. -/
structure SchemaError where
  missing : List String
  found : List String
deriving Repr, DecidableEq

/-- The `resolved` mapping of `normalize_cols` (src/app.py lines 41-46): for
each canonical field, the first alias in its candidate list present among the
(trimmed) headers, when one exists. -/
def resolvedOf (hs : List String) : List (String × String) :=
  catalogAliases.filterMap fun p =>
    (p.2.find? fun o => hs.contains o).map fun o => (p.1, o)

/-- The `missing` list of `normalize_cols` (src/app.py line 48): canonical
fields absent from the `resolved` mapping. -/
def missingOf (hs : List String) : List String :=
  (catalogAliases.map Prod.fst).filter fun k =>
    !(((resolvedOf hs).map Prod.fst).contains k)

/-- `normalize_cols` (src/app.py lines 19-56) restricted to what it does with
the header row: trim headers, resolve each canonical field to its first
matching alias, and fail when any canonical field is unresolved.  On success
it returns the resolved canonical-field → source-header mapping used for the
rename on line 55. -/
def normalize_cols (headers : List String) : Except SchemaError (List (String × String)) :=
  let hs := headers.map strip
  if (missingOf hs).isEmpty then Except.ok (resolvedOf hs)
  else Except.error ⟨missingOf hs, hs⟩

/-- A raw catalog row after `pd.read_excel` and the numeric coercions of
src/app.py lines 67-68: `none` in `partNumber`/`description` models a missing
cell (NaN); `none` in `weight`/`pcr` models a missing or non-coercible value
(NaN after `pd.to_numeric(..., errors="coerce")`). -/
structure RawCatalogRow where
  partNumber : Option String
  description : Option String
  weight : Option ℚ
  pcr : Option ℚ
deriving Repr, DecidableEq

/-- A clean catalog record as produced by `load_xlsx`. -/
structure PartRecord where
  partNumber : String
  description : String
  weight : ℚ
  pcr : ℚ
  quantity : ℚ
deriving Repr, DecidableEq

/-- pandas `.astype(str)` on a cell: a missing value (float NaN) stringifies
to the literal string so the column holds no missing values afterwards. -/
def astypeStr : Option String → String
  | none => "nan"
  | some s => s

/-- pandas `.clip(lower, upper)`. -/
def clip (lower upper x : ℚ) : ℚ := min upper (max lower x)

/-- The row-processing part of `load_xlsx` (src/app.py lines 64-75), after
`normalize_cols` succeeded: stringify+trim part number and description (line
64-65), coerce weight and PCR to numeric (lines 67-68, already reflected in
`RawCatalogRow`), `dropna(subset=["Vendor Part Number", "Weight (g)", "PCR %"])`
(line 70) — note the part-number column was cast to `str` on line 64, so it
holds no NaN and the dropna can only fire on weight and PCR —, clamp PCR to
[0,100] (line 71), and initialize Quantity to 0 (line 74). -/
def load_xlsx_rows (rows : List RawCatalogRow) : List PartRecord :=
  (rows.filter fun r => r.weight.isSome && r.pcr.isSome).map fun r =>
    { partNumber := strip (astypeStr r.partNumber)
      description := strip (astypeStr r.description)
      weight := r.weight.getD 0
      pcr := clip 0 100 (r.pcr.getD 0)
      quantity := 0 }

/-- Part-number header candidates of `load_purchase_csv` (src/app.py line 84). -/
def pn_candidates : List String :=
  ["Vendor Part Number", "Part Number", "Part #", "VendorPN", "Vendor PN"]

/-- Quantity header candidates of `load_purchase_csv` (src/app.py line 85). -/
def qty_candidates : List String :=
  ["Quantity", "Qty", "Quantity Purchased", "Units", "Count"]

/-- The header-resolution part of `load_purchase_csv` (src/app.py lines
81-98): trim the headers, bind the part-number and quantity fields to the
first matching candidate, `none` (the `ValueError` of line 91) when either
has no match. -/
def purchase_resolve (headers : List String) : Option (String × String) :=
  let hs := headers.map strip
  match pn_candidates.find? (fun c => hs.contains c),
        qty_candidates.find? (fun c => hs.contains c) with
  | some pn, some qty => some (pn, qty)
  | _, _ => none

/-- A raw purchase-ledger row after `pd.read_csv`: `none` quantity models a
missing or non-coercible value (NaN after `pd.to_numeric(..., errors="coerce")`). -/
structure RawPurchaseRow where
  partNumber : Option String
  quantity : Option ℚ
deriving Repr, DecidableEq

/-- `.fillna(0)` after the numeric coercion of src/app.py line 100. -/
def coerceQty (q : Option ℚ) : ℚ := q.getD 0

/-- Lines 99-100 of `load_purchase_csv`: stringify+trim the part number and
coerce the quantity with non-coercible values becoming 0. -/
def purchaseRows (rows : List RawPurchaseRow) : List (String × ℚ) :=
  rows.map fun r => (strip (astypeStr r.partNumber), coerceQty r.quantity)

/-- The distinct part numbers of a coerced ledger, first occurrence order.
(pandas `groupby` additionally sorts the keys; the order of the grouped rows
is irrelevant to every property stated below.) -/
def groupKeys (l : List (String × ℚ)) : List String := (l.map Prod.fst).dedup

/-- Total coerced quantity of one part number across a coerced ledger. -/
def groupSum (l : List (String × ℚ)) (k : String) : ℚ :=
  ((l.filter fun p => p.1 == k).map Prod.snd).sum

/-- The row-processing part of `load_purchase_csv` (src/app.py lines 99-101),
after header resolution succeeded: coerce quantities, then
`groupby("Vendor Part Number")["Quantity"].sum()`. -/
def load_purchase_rows (rows : List RawPurchaseRow) : List (String × ℚ) :=
  let l := purchaseRows rows
  (groupKeys l).map fun k => (k, groupSum l k)

/-- Quantity lookup in an aggregated purchase set.  `load_purchase_csv`
guarantees (by its groupby) that part numbers are unique in the purchase set,
so the first match is the only match and this is the semantics of the
left `merge` of src/app.py line 162. -/
def lookupQty (purchases : List (String × ℚ)) (pn : String) : Option ℚ :=
  (purchases.find? fun p => p.1 == pn).map Prod.snd

/-- The per-row effect of the purchase merge (src/app.py lines 162-165):
after the left join, `work["Quantity"] = work["Quantity_csv"].fillna(work["Quantity"])`
keeps the purchase quantity when the part number matched and the prior
quantity otherwise. -/
def mergedQuantity (purchases : List (String × ℚ)) (r : PartRecord) : ℚ :=
  (lookupQty purchases r.partNumber).getD r.quantity

/-- The purchase merge (src/app.py lines 162-165): every catalog row is kept,
with its quantity resolved against the purchase set. -/
def mergePurchases (catalog : List PartRecord) (purchases : List (String × ℚ)) :
    List PartRecord :=
  catalog.map fun r => { r with quantity := mergedQuantity purchases r }

/-- The `UnmatchedSet` computation (src/app.py lines 168-170): purchase part
numbers absent from the catalog. -/
def unmatchedParts (catalog : List PartRecord) (purchases : List (String × ℚ)) :
    List String :=
  (purchases.map Prod.fst).filter fun pn =>
    !((catalog.map PartRecord.partNumber).contains pn)

/-- A record-set row as it reaches the calculator: each numeric cell may have
been free-form edited, so it is again an arbitrary coercion result
(`none` = missing or non-coercible). -/
structure EditedRow where
  partNumber : String
  description : String
  weight : Option ℚ
  pcr : Option ℚ
  quantity : Option ℚ
deriving Repr, DecidableEq

/-- The calculator's defensive input coercion (src/app.py lines 225-228):
`Quantity` and `Weight (g)` get `pd.to_numeric(..., errors="coerce").fillna(0)`,
`PCR %` additionally gets `.clip(0, 100)`. -/
def calcCoerce (r : EditedRow) : PartRecord :=
  { partNumber := r.partNumber
    description := r.description
    weight := r.weight.getD 0
    pcr := clip 0 100 (r.pcr.getD 0)
    quantity := r.quantity.getD 0 }

/-- `detail["Total Weight (lb)"]` (src/app.py line 265). -/
def totalWeightLb (r : PartRecord) : ℚ := r.weight * r.quantity / GRAMS_PER_LB

/-- `detail["PCR Weight (lb)"]` (src/app.py line 266). -/
def pcrWeightLb (r : PartRecord) : ℚ := totalWeightLb r * (r.pcr / 100)

/-- `detail["PCR Weight (kg)"]` (src/app.py line 267). -/
def pcrWeightKg (r : PartRecord) : ℚ := pcrWeightLb r * KG_PER_LB

/-- `detail["Avoided CO₂ (metric tons)"]` (src/app.py line 268);
`benefit` is the `pet_pcr_benefit` sidebar factor. -/
def avoidedCo2MetricTons (r : PartRecord) (benefit : ℚ) : ℚ :=
  pcrWeightKg r * benefit / 1000

/-! ## Claims -/

/-- C1: every per-record detail output satisfies the exact formula chain
`totalWeightLb = weightGrams × quantity / 453.59237`,
`pcrWeightLb = totalWeightLb × pcrPercent/100`,
`pcrWeightKg = pcrWeightLb × 0.45359237`, and
`avoidedCo2MetricTons = pcrWeightKg × pcrConversionBenefit / 1000`, with the
unit constants exact; in particular every record with zero weight or zero
quantity has all four metrics exactly 0. -/
theorem spec_C1 (r : PartRecord) (benefit : ℚ) :
    totalWeightLb r = r.weight * r.quantity / GRAMS_PER_LB ∧
    pcrWeightLb r = totalWeightLb r * (r.pcr / 100) ∧
    pcrWeightKg r = pcrWeightLb r * KG_PER_LB ∧
    avoidedCo2MetricTons r benefit = pcrWeightKg r * benefit / 1000 ∧
    GRAMS_PER_LB = 45359237 / 100000 ∧
    KG_PER_LB = 45359237 / 100000000 ∧
    (r.weight = 0 ∨ r.quantity = 0 →
      totalWeightLb r = 0 ∧ pcrWeightLb r = 0 ∧ pcrWeightKg r = 0 ∧
      avoidedCo2MetricTons r benefit = 0) := by
  refine ⟨rfl, rfl, rfl, rfl, by norm_num [GRAMS_PER_LB], by norm_num [KG_PER_LB], ?_⟩
  rintro (h | h) <;>
    simp [avoidedCo2MetricTons, pcrWeightKg, pcrWeightLb, totalWeightLb, h]

/-- Witness for C1 at a concrete zero-weight record. -/
theorem spec_C1_witness :
    totalWeightLb ⟨"P-1", "bottle", 0, 50, 3⟩ = 0 ∧
    avoidedCo2MetricTons ⟨"P-1", "bottle", 0, 50, 3⟩ 2 = 0 := by
  have h := spec_C1 ⟨"P-1", "bottle", 0, 50, 3⟩ 2
  exact ⟨(h.2.2.2.2.2.2 (Or.inl rfl)).1, (h.2.2.2.2.2.2 (Or.inl rfl)).2.2.2⟩

/-- C2: the merge gives every matched catalog row the purchase quantity
(replacing, not adding), leaves unmatched rows unchanged, is idempotent for a
fixed purchase set, and a second merge with a different purchase set gives a
matched row that set's quantity with no contribution from the first merge. -/
theorem spec_C2 (c : List PartRecord) (P P1 P2 : List (String × ℚ))
    (r : PartRecord) (q : ℚ) :
    (lookupQty P r.partNumber = some q → mergedQuantity P r = q) ∧
    (lookupQty P r.partNumber = none →
      { r with quantity := mergedQuantity P r } = r) ∧
    mergePurchases (mergePurchases c P) P = mergePurchases c P ∧
    (lookupQty P2 r.partNumber = some q →
      mergedQuantity P2 { r with quantity := mergedQuantity P1 r } = q) := by
  refine ⟨fun h => by simp [mergedQuantity, h], fun h => by simp [mergedQuantity, h],
    ?_, fun h => by simp [mergedQuantity, h]⟩
  unfold mergePurchases
  rw [List.map_map]
  refine List.map_congr_left fun r hr => ?_
  cases hl : lookupQty P r.partNumber <;>
    simp [Function.comp, mergedQuantity, hl]

/-- Witness for C2 at a concrete one-part purchase set. -/
theorem spec_C2_witness :
    mergedQuantity [("A", (5 : ℚ))] ⟨"A", "bottle", 1, 50, 0⟩ = 5 :=
  (spec_C2 [] [("A", (5 : ℚ))] [] [] ⟨"A", "bottle", 1, 50, 0⟩ 5).1 rfl

/-- C5: the claim says `load_xlsx` excludes exactly the rows whose part
number, weight, or PCR% is missing.  The weight and PCR exclusions hold, but
a row with a missing part number is NOT excluded: line 64 of src/app.py casts
the part-number column to `str` before the `dropna` of line 70, so the
missing value has already become the string `"nan"` and the row survives. -/
theorem spec_C5 :
    load_xlsx_rows [⟨none, some "widget", some 10, some 50⟩] =
      [⟨"nan", "widget", 10, 50, 0⟩] ∧
    load_xlsx_rows [⟨some "A", some "widget", none, some 50⟩] = [] ∧
    load_xlsx_rows [⟨some "A", some "widget", some 10, none⟩] = [] := by
  refine ⟨?_, rfl, rfl⟩
  simp [load_xlsx_rows, astypeStr, clip]
  constructor <;> decide

/-- C6 (amended): the calculator re-derives safe numeric values: a
non-numeric quantity or weight becomes 0 and PCR% is re-clamped to [0,100]
(non-numeric PCR% becoming 0); but a NEGATIVE numeric quantity or weight
passes through unchanged rather than being treated as 0. -/
theorem spec_C6 (e : EditedRow) :
    (e.quantity = none → (calcCoerce e).quantity = 0) ∧
    (∀ q, e.quantity = some q → (calcCoerce e).quantity = q) ∧
    (e.weight = none → (calcCoerce e).weight = 0) ∧
    (∀ w, e.weight = some w → (calcCoerce e).weight = w) ∧
    (e.pcr = none → (calcCoerce e).pcr = 0) ∧
    (0 ≤ (calcCoerce e).pcr ∧ (calcCoerce e).pcr ≤ 100) := by
  refine ⟨fun h => by simp [calcCoerce, h], fun q h => by simp [calcCoerce, h],
    fun h => by simp [calcCoerce, h], fun w h => by simp [calcCoerce, h],
    fun h => by simp [calcCoerce, clip, h], ?_, ?_⟩
  · exact le_min (by norm_num) (le_max_left 0 _)
  · exact min_le_left _ _

/-- Counterexample to C6 as stated: a record reaching the calculator with
quantity −5 and weight −3 keeps those negative values, they are not treated
as 0. -/
theorem spec_C6_counterexample :
    (calcCoerce ⟨"A", "widget", some (-3), some 50, some (-5)⟩).quantity = -5 ∧
    (calcCoerce ⟨"A", "widget", some (-3), some 50, some (-5)⟩).weight = -3 ∧
    (-5 : ℚ) ≠ 0 ∧ (-3 : ℚ) ≠ 0 := by
  refine ⟨rfl, rfl, by norm_num, by norm_num⟩

/-- Witness for C6 at a concrete non-numeric-quantity record. -/
theorem spec_C6_witness :
    (calcCoerce ⟨"A", "widget", some 2, some 50, none⟩).quantity = 0 :=
  (spec_C6 ⟨"A", "widget", some 2, some 50, none⟩).1 rfl

lemma load_purchase_keys (rows : List RawPurchaseRow) :
    (load_purchase_rows rows).map Prod.fst = groupKeys (purchaseRows rows) := by
  have h : (Prod.fst ∘ fun k => (k, groupSum (purchaseRows rows) k)) = id := rfl
  simp [load_purchase_rows, List.map_map, h]

lemma groupSum_purchaseRows (rows : List RawPurchaseRow) (k : String) :
    groupSum (purchaseRows rows) k =
      ((rows.filter fun r => strip (astypeStr r.partNumber) == k).map
        fun r => coerceQty r.quantity).sum := by
  unfold groupSum purchaseRows
  rw [List.filter_map, List.map_map]
  rfl

/-- C3: the purchase loader coerces each quantity (non-coercible → 0, no row
dropped) and groups by trimmed part number, summing: part numbers are unique
in its output, each output quantity is the sum of the coerced quantities of
that part's input rows, every input row's part number reaches the output,
and two rows of the same part with quantities 100 and 250 collapse to one
row with quantity 350. -/
theorem spec_C3 (rows : List RawPurchaseRow) :
    ((load_purchase_rows rows).map Prod.fst).Nodup ∧
    (∀ k q, (k, q) ∈ load_purchase_rows rows →
      q = ((rows.filter fun r => strip (astypeStr r.partNumber) == k).map
            fun r => coerceQty r.quantity).sum) ∧
    (∀ r ∈ rows, ∃ q, (strip (astypeStr r.partNumber), q) ∈ load_purchase_rows rows) ∧
    load_purchase_rows [⟨some "A", some 100⟩, ⟨some "A", some 250⟩] = [("A", 350)] := by
  refine ⟨?_, ?_, ?_, ?_⟩
  · rw [load_purchase_keys]
    exact List.nodup_dedup _
  · intro k q hmem
    unfold load_purchase_rows at hmem
    obtain ⟨k1, hk1, heq⟩ := List.mem_map.mp hmem
    obtain ⟨h1, h2⟩ := Prod.mk.injEq .. ▸ heq
    subst h1
    rw [← h2, groupSum_purchaseRows]
  · intro r hr
    refine ⟨groupSum (purchaseRows rows) (strip (astypeStr r.partNumber)), ?_⟩
    unfold load_purchase_rows
    refine List.mem_map_of_mem _ ?_
    exact List.mem_dedup.mpr
      (List.mem_map_of_mem _ (List.mem_map_of_mem _ hr))
  · have hA : strip "A" = "A" := by decide
    simp [load_purchase_rows, purchaseRows, groupKeys, groupSum, coerceQty,
      astypeStr, hA]
    norm_num

/-- Witness for C3: a ledger whose only row for part B has a non-coercible
quantity yields quantity 0 for B — the row is kept, its value coerced. -/
theorem spec_C3_witness :
    (0 : ℚ) =
      ((List.filter (fun r => strip (astypeStr r.partNumber) == "B")
          [RawPurchaseRow.mk (some "B") none]).map
        fun r => coerceQty r.quantity).sum :=
  (spec_C3 [RawPurchaseRow.mk (some "B") none]).2.1 "B" 0 (by
    have hB : strip "B" = "B" := by decide
    simp [load_purchase_rows, purchaseRows, groupKeys, groupSum, coerceQty,
      astypeStr, hB])

/-- C4: every record surviving the catalog load, and every record after the
calculator's defensive re-coercion, has its PCR percent inside [0,100]. -/
theorem spec_C4 (rows : List RawCatalogRow) (r : PartRecord) (e : EditedRow)
    (h : r ∈ load_xlsx_rows rows) :
    (0 ≤ r.pcr ∧ r.pcr ≤ 100) ∧
    (0 ≤ (calcCoerce e).pcr ∧ (calcCoerce e).pcr ≤ 100) := by
  have hb : ∀ x : ℚ, 0 ≤ clip 0 100 x ∧ clip 0 100 x ≤ 100 := fun x =>
    ⟨le_min (by norm_num) (le_max_left 0 x), min_le_left _ _⟩
  constructor
  · unfold load_xlsx_rows at h
    obtain ⟨a, -, rfl⟩ := List.mem_map.mp h
    exact hb _
  · exact hb _

/-- Witness for C4 at a concrete catalog with an out-of-range input PCR of
150 and an edited record with PCR −7. -/
theorem spec_C4_witness :
    ((0 : ℚ) ≤ (⟨"A", "widget", 10, 100, 0⟩ : PartRecord).pcr ∧
      (⟨"A", "widget", 10, 100, 0⟩ : PartRecord).pcr ≤ 100) ∧
    ((0 : ℚ) ≤ (calcCoerce ⟨"A", "widget", some 10, some (-7), some 1⟩).pcr ∧
      (calcCoerce ⟨"A", "widget", some 10, some (-7), some 1⟩).pcr ≤ 100) :=
  spec_C4 [⟨some "A", some "widget", some 10, some 150⟩] _ _ (by decide)

/-- C9: when the catalog holds k rows with the same part number and the
purchase set holds quantity q for it, the merge assigns q to each of the k
rows, so their merged quantities sum to k × q. -/
theorem spec_C9 (c : List PartRecord) (P : List (String × ℚ)) (pn : String)
    (q : ℚ) (h : lookupQty P pn = some q) :
    (((mergePurchases c P).filter fun r => r.partNumber == pn).map
        PartRecord.quantity).sum =
      ((c.filter fun r => r.partNumber == pn).length : ℚ) * q := by
  induction c with
  | nil => simp [mergePurchases]
  | cons r t ih =>
    by_cases hr : r.partNumber = pn
    · have hq : mergedQuantity P r = q := by
        simp [mergedQuantity, hr, h]
      simp only [mergePurchases, List.map_cons, List.filter_cons] at ih ⊢
      simp only [hr, hq, beq_self_eq_true, if_true, List.map_cons,
        List.sum_cons, List.length_cons]
      rw [ih]
      push_cast
      ring
    · have hb : (r.partNumber == pn) = false := by
        simp [hr]
      simp only [mergePurchases, List.map_cons, List.filter_cons] at ih ⊢
      simp only [hb, Bool.false_eq_true, if_false]
      exact ih

/-- Witness for C9: two catalog rows of part A merged against quantity 7 sum
to 14. -/
theorem spec_C9_witness :
    (((mergePurchases [⟨"A", "w1", 1, 10, 0⟩, ⟨"A", "w2", 2, 20, 0⟩]
          [("A", (7 : ℚ))]).filter fun r => r.partNumber == "A").map
        PartRecord.quantity).sum =
      ((([⟨"A", "w1", 1, 10, 0⟩, ⟨"A", "w2", 2, 20, 0⟩] :
          List PartRecord).filter fun r => r.partNumber == "A").length : ℚ) * 7 :=
  spec_C9 [⟨"A", "w1", 1, 10, 0⟩, ⟨"A", "w2", 2, 20, 0⟩] [("A", (7 : ℚ))] "A" 7 rfl

lemma normalize_cols_eq (headers : List String) :
    normalize_cols headers =
      if (missingOf (headers.map strip)).isEmpty then
        Except.ok (resolvedOf (headers.map strip))
      else Except.error ⟨missingOf (headers.map strip), headers.map strip⟩ := rfl

lemma catalogAliases_keys_nodup : (catalogAliases.map Prod.fst).Nodup := by decide

lemma resolvedOf_keys_mem (hs : List String) (k : String) :
    k ∈ (resolvedOf hs).map Prod.fst ↔
      ∃ p ∈ catalogAliases, p.1 = k ∧
        ∃ o, p.2.find? (fun x => hs.contains x) = some o := by
  simp only [resolvedOf, List.mem_map, List.mem_filterMap, Option.map_eq_some']
  constructor
  · rintro ⟨x, ⟨p, hp, o, hfo, rfl⟩, rfl⟩
    exact ⟨p, hp, rfl, o, hfo⟩
  · rintro ⟨p, hp, rfl, o, hfo⟩
    exact ⟨(p.1, o), ⟨p, hp, o, hfo, rfl⟩, rfl⟩

lemma mem_missingOf (hs : List String) (k : String) :
    k ∈ missingOf hs ↔
      ∃ p ∈ catalogAliases, p.1 = k ∧ ∀ o ∈ p.2, o ∉ hs := by
  unfold missingOf
  rw [List.mem_filter]
  constructor
  · rintro ⟨hk, hnot⟩
    obtain ⟨p, hp, rfl⟩ := List.mem_map.mp hk
    have hnm : p.1 ∉ (resolvedOf hs).map Prod.fst := by simpa using hnot
    refine ⟨p, hp, rfl, fun o ho hoin => ?_⟩
    apply hnm
    refine (resolvedOf_keys_mem hs p.1).mpr ⟨p, hp, rfl, ?_⟩
    rcases hf : p.2.find? (fun x => hs.contains x) with _ | o2
    · exact absurd (by simpa using hoin)
        (List.find?_eq_none.mp hf o ho)
    · exact ⟨o2, rfl⟩
  · rintro ⟨p, hp, rfl, habs⟩
    refine ⟨List.mem_map_of_mem _ hp, ?_⟩
    have hnm : p.1 ∉ (resolvedOf hs).map Prod.fst := by
      intro hmem
      obtain ⟨p2, hp2, hk2, o, hfo⟩ := (resolvedOf_keys_mem hs p.1).mp hmem
      have hpp : p2 = p :=
        List.inj_on_of_nodup_map catalogAliases_keys_nodup hp2 hp hk2
      subst hpp
      exact habs o (List.mem_of_find?_eq_some hfo)
        (by simpa using List.find?_some hfo)
    simpa using hnm

/-- C7: `normalize_cols` fails exactly when some canonical field has no
matching alias among the trimmed headers, its error carries every unresolved
canonical field together with all headers present, and a catalog with no
weight alias fails naming `Weight (g)` among the missing fields. -/
theorem spec_C7 (headers : List String) :
    ((∃ e, normalize_cols headers = Except.error e) ↔
      ∃ p ∈ catalogAliases, ∀ o ∈ p.2, o ∉ headers.map strip) ∧
    (∀ e, normalize_cols headers = Except.error e →
      e.found = headers.map strip ∧
      ∀ k, k ∈ e.missing ↔
        ∃ p ∈ catalogAliases, p.1 = k ∧ ∀ o ∈ p.2, o ∉ headers.map strip) ∧
    (∃ e, normalize_cols ["Part Number", "Description", "Item", "PCR %"] =
        Except.error e ∧ "Weight (g)" ∈ e.missing) := by
  refine ⟨⟨?_, ?_⟩, ?_, ?_⟩
  · rintro ⟨e, he⟩
    rw [normalize_cols_eq] at he
    by_cases hemp : (missingOf (headers.map strip)).isEmpty
    · simp [hemp] at he
    · have hne : missingOf (headers.map strip) ≠ [] := by
        simpa [List.isEmpty_iff] using hemp
      obtain ⟨k, hk⟩ := List.exists_mem_of_ne_nil _ hne
      obtain ⟨p, hp, -, hall⟩ := (mem_missingOf _ _).mp hk
      exact ⟨p, hp, hall⟩
  · rintro ⟨p, hp, hall⟩
    have hk : p.1 ∈ missingOf (headers.map strip) :=
      (mem_missingOf _ _).mpr ⟨p, hp, rfl, hall⟩
    have hne : ¬(missingOf (headers.map strip)).isEmpty = true := by
      intro hemp
      rw [List.isEmpty_iff] at hemp
      simp [hemp] at hk
    exact ⟨⟨missingOf (headers.map strip), headers.map strip⟩,
      by rw [normalize_cols_eq]; simp [hne]⟩
  · intro e he
    rw [normalize_cols_eq] at he
    by_cases hemp : (missingOf (headers.map strip)).isEmpty
    · simp [hemp] at he
    · simp only [hemp, if_false, Bool.false_eq_true, Except.error.injEq] at he
      subst he
      exact ⟨rfl, fun k => mem_missingOf _ k⟩
  · refine ⟨⟨["Weight (g)"], ["Part Number", "Description", "Item", "PCR %"]⟩,
      rfl, by simp⟩

/-- Witness for C7 at a concrete weightless catalog header set. -/
theorem spec_C7_witness :
    (SchemaError.mk ["Weight (g)"]
        ["Part Number", "Description", "Item", "PCR %"]).found =
      ["Part Number", "Description", "Item", "PCR %"].map strip :=
  ((spec_C7 ["Part Number", "Description", "Item", "PCR %"]).2.1
      ⟨["Weight (g)"], ["Part Number", "Description", "Item", "PCR %"]⟩ rfl).1

lemma find_first_of_mem {α : Type} (p : α → Bool) (l1 : List α) (a : α)
    (l2 : List α) (h : p a = true) :
    ∃ o ∈ l1 ++ [a], (l1 ++ a :: l2).find? p = some o := by
  induction l1 with
  | nil =>
    refine ⟨a, by simp, ?_⟩
    rw [List.nil_append, List.find?_cons_of_pos _ h]
  | cons b t ih =>
    cases hb : p b with
    | true =>
      refine ⟨b, by simp, ?_⟩
      rw [List.cons_append, List.find?_cons_of_pos _ hb]
    | false =>
      obtain ⟨o, ho, hf⟩ := ih
      refine ⟨o, List.mem_cons_of_mem _ ho, ?_⟩
      rw [List.cons_append, List.find?_cons_of_neg _ (by simp [hb])]
      exact hf

lemma mem_resolvedOf (hs : List String) (p : String × List String) (o : String)
    (hp : p ∈ catalogAliases)
    (hf : (p.2.find? fun x => hs.contains x) = some o) :
    (p.1, o) ∈ resolvedOf hs := by
  unfold resolvedOf
  exact List.mem_filterMap.mpr ⟨p, hp, by rw [hf]; rfl⟩

lemma find_congr_headers (as hs hs2 : List String)
    (h : ∀ x, x ∈ hs ↔ x ∈ hs2) :
    (as.find? fun o => hs.contains o) = as.find? fun o => hs2.contains o := by
  induction as with
  | nil => rfl
  | cons a t ih =>
    have hc : hs.contains a = hs2.contains a := by
      by_cases ha : a ∈ hs
      · have ha2 : a ∈ hs2 := (h a).mp ha
        simp [ha, ha2]
      · have ha2 : a ∉ hs2 := fun hx => ha ((h a).mpr hx)
        simp [ha, ha2]
    cases hc2 : hs2.contains a with
    | true =>
      rw [List.find?_cons_of_pos _ (show hs.contains a = true by rw [hc, hc2]),
        List.find?_cons_of_pos _ hc2]
    | false =>
      rw [List.find?_cons_of_neg _
          (show ¬hs.contains a = true by rw [hc, hc2]; simp),
        List.find?_cons_of_neg _ (show ¬hs2.contains a = true by rw [hc2]; simp)]
      exact ih

/-- C8: for every canonical field whose alias list has a member among the
headers, the normalizer binds the field to the FIRST present alias of its
priority-ordered list — never an alias later than any present one — and the
binding depends only on the header set (so not on table column order and not
on the other canonical fields). -/
theorem spec_C8 (hs hs2 : List String) (p : String × List String)
    (hp : p ∈ catalogAliases) :
    (∀ l1 a l2, p.2 = l1 ++ a :: l2 → a ∈ hs →
      ∃ o ∈ l1 ++ [a], o ∈ hs ∧
        (p.2.find? fun x => hs.contains x) = some o ∧
        (p.1, o) ∈ resolvedOf hs) ∧
    ((∀ x, x ∈ hs ↔ x ∈ hs2) →
      (p.2.find? fun x => hs.contains x) = p.2.find? fun x => hs2.contains x) := by
  constructor
  · intro l1 a l2 hsplit ha
    have hpa : (fun x => hs.contains x) a = true := by simpa using ha
    obtain ⟨o, ho, hf⟩ := find_first_of_mem _ l1 a l2 hpa
    have hf2 : (p.2.find? fun x => hs.contains x) = some o := by
      rw [hsplit]; exact hf
    exact ⟨o, ho, by simpa using List.find?_some hf2, hf2,
      mem_resolvedOf hs p o hp hf2⟩
  · exact find_congr_headers p.2 hs hs2

/-- Witness for C8: with headers `["Gram Weight"]`, the weight field binds to
`Gram Weight`, the second alias, since the first is absent. -/
theorem spec_C8_witness :
    ∃ o ∈ ["Weight (g)", "Gram Weight"], o ∈ (["Gram Weight"] : List String) ∧
      ((("Weight (g)",
          ["Weight (g)", "Gram Weight", "Gram Weight (g)", "Grams",
           "Weight Grams", "Weight_g", "Weight"]) :
            String × List String).2.find?
          fun x => (["Gram Weight"] : List String).contains x) = some o ∧
      ("Weight (g)", o) ∈ resolvedOf ["Gram Weight"] :=
  (spec_C8 ["Gram Weight"] []
      ("Weight (g)",
        ["Weight (g)", "Gram Weight", "Gram Weight (g)", "Grams",
         "Weight Grams", "Weight_g", "Weight"]) (by decide)).1
    ["Weight (g)"] "Gram Weight"
    ["Gram Weight (g)", "Grams", "Weight Grams", "Weight_g", "Weight"]
    rfl (by decide)

/-- C10: header matching is exact and case-sensitive after trimming, in both
loaders: a header differing from an alias only in letter case resolves
nothing (so with no other alias present the load fails), and any bound
header is literally one of the accepted aliases. -/
theorem spec_C10 :
    (lowerStr "weight (g)" = lowerStr "Weight (g)" ∧
      ∃ e, normalize_cols ["Part Number", "Description", "weight (g)", "PCR %"] =
          Except.error e ∧ "Weight (g)" ∈ e.missing) ∧
    (lowerStr "QTY" = lowerStr "Qty" ∧
      purchase_resolve ["Part Number", "QTY"] = none) ∧
    (∀ (hs : List String) (p : String × List String) (o : String),
      p ∈ catalogAliases →
      (p.2.find? fun x => hs.contains x) = some o → o ∈ p.2 ∧ o ∈ hs) ∧
    (∀ (hs : List String) (pnh qh : String),
      purchase_resolve hs = some (pnh, qh) →
      (pnh ∈ pn_candidates ∧ pnh ∈ hs.map strip) ∧
      (qh ∈ qty_candidates ∧ qh ∈ hs.map strip)) := by
  refine ⟨⟨by decide, ?_⟩, ⟨by decide, rfl⟩, ?_, ?_⟩
  · exact ⟨⟨["Weight (g)"],
      ["Part Number", "Description", "weight (g)", "PCR %"]⟩, rfl, by simp⟩
  · intro hs p o hp hf
    exact ⟨List.mem_of_find?_eq_some hf, by simpa using List.find?_some hf⟩
  · intro hs pnh qh h
    rcases hpn : pn_candidates.find? (fun c => (hs.map strip).contains c)
      with _ | pn2 <;>
      rcases hq : qty_candidates.find? (fun c => (hs.map strip).contains c)
        with _ | q2 <;>
      simp only [purchase_resolve, hpn, hq, Option.some.injEq,
        Prod.mk.injEq, reduceCtorEq] at h
    obtain ⟨rfl, rfl⟩ := h
    exact ⟨⟨List.mem_of_find?_eq_some hpn, by simpa using List.find?_some hpn⟩,
      ⟨List.mem_of_find?_eq_some hq, by simpa using List.find?_some hq⟩⟩

/-- Witness for C10: with the single header `Weight`, the weight field binds
to the literal alias `Weight`. -/
theorem spec_C10_witness :
    "Weight" ∈ (("Weight (g)",
        ["Weight (g)", "Gram Weight", "Gram Weight (g)", "Grams",
         "Weight Grams", "Weight_g", "Weight"]) : String × List String).2 ∧
      "Weight" ∈ (["Weight"] : List String) :=
  spec_C10.2.2.1 ["Weight"]
    ("Weight (g)",
      ["Weight (g)", "Gram Weight", "Gram Weight (g)", "Grams",
       "Weight Grams", "Weight_g", "Weight"]) "Weight" (by decide) rfl

end PetPcr
